import Mathlib

set_option maxRecDepth 100000

/-!
Shallow embedding of the IS31FL3731 LED-matrix driver (src/src/lib.rs).

The driver talks to the chip over an i2c bus.  We model the bus as an
oracle `Bus : Nat → Bool` telling whether the n-th write attempt
succeeds, and record every successful bus transaction (and the one
timed delay during construction) in an event trace.  Fallible
operations return `Except St St`: on failure the state at the moment
of the failing write is carried in the error, mirroring Rust's `?`
operator which aborts the enclosing function at the first bus error.

Bytes are modelled as `Nat`; the only place the source relies on
fixed-width wrap-around is the `pixel_num as u8` cast and the
`0x24 + _` u8 addition inside `draw_pixel`, which we render with
explicit `% 256`.
-/

namespace IS31FL3731

/-- An observable effect: a bus write of a byte sequence, or the timed
delay used once during construction. -/
inductive Event where
  | write (data : List Nat)
  | delayMs (ms : Nat)
  deriving DecidableEq, Repr

/-- The mutable field of the Rust `IS31FL3731` struct (the bus handle
and device address carry no driver-visible state and are omitted). -/
structure Driver where
  current_frame : Nat
  deriving DecidableEq, Repr

/-- Execution state threaded through the operations: driver fields,
the number of bus-write attempts so far (indexing the bus oracle), and
the trace of events that actually happened. -/
structure St where
  dev : Driver
  nWrites : Nat
  trace : List Event
  deriving DecidableEq, Repr

/-- Bus oracle: `bus n` tells whether the n-th write attempt succeeds. -/
abbrev Bus := Nat → Bool

/-- The always-succeeding bus. -/
def busTrue : Bus := fun _ => true

/-- `self.i2c.write(self.a, data)`: on success the write is appended
to the trace; on failure the state is returned unchanged inside the
error (the transaction had no observable effect). -/
def i2c_write (bus : Bus) (st : St) (data : List Nat) : Except St St :=
  if bus st.nWrites then
    .ok { st with nWrites := st.nWrites + 1, trace := st.trace ++ [.write data] }
  else
    .error st

/-- `d.delay_ms(ms)`: infallible, recorded in the trace. -/
def delay_ms (st : St) (ms : Nat) : St :=
  { st with trace := st.trace ++ [.delayMs ms] }

-- Register map constants from the source.
def ISSI_REG_PICTUREFRAME : Nat := 0x01
def ISSI_REG_SHUTDOWN : Nat := 0x0A
def ISSI_REG_AUDIOSYNC : Nat := 0x06
def ISSI_COMMANDREGISTER : Nat := 0xFD
def ISSI_BANK_FUNCTIONREG : Nat := 0x0B

/-- `pub fn select_frame(&mut self, frame: u8)` -/
def select_frame (st : St) (frame : Nat) : St :=
  if frame > 7 then
    { st with dev := { st.dev with current_frame := 0 } }
  else
    { st with dev := { st.dev with current_frame := frame } }

/-- `fn select_bank(&mut self, bank: u8)` -/
def select_bank (bus : Bus) (st : St) (bank : Nat) : Except St St :=
  i2c_write bus st [ISSI_COMMANDREGISTER, bank]

/-- `fn write_to_bank(&mut self, bank: u8, reg: u8, value: u8)` -/
def write_to_bank (bus : Bus) (st : St) (bank reg value : Nat) : Except St St := do
  let st ← select_bank bus st bank
  i2c_write bus st [reg, value]

/-- The 181-byte command buffer built by `clear()`: `[0u8; 0xb5]`,
then `command[1 + i] = 0xff` for `i in 0x00..0x12`, then
`command[1 + i] = 0x00` for `i in 0x12..0xb4`. -/
def clearCommand : List Nat :=
  (List.range 0xb5).map fun j =>
    if 1 ≤ j ∧ j < 1 + 0x12 then 0xff else 0x00

/-- `pub fn clear(&mut self)` -/
def clear (bus : Bus) (st : St) : Except St St := do
  let st1 ← select_bank bus st st.dev.current_frame
  let st2 ← i2c_write bus st1 clearCommand
  pure st2

/-- `pub fn display_frame(&mut self, mut frame: u8)` -/
def display_frame (bus : Bus) (st : St) (frame : Nat) : Except St St :=
  let frame := if frame > 7 then 0 else frame
  write_to_bank bus st ISSI_BANK_FUNCTIONREG ISSI_REG_PICTUREFRAME frame

/-- `pub fn fill(&mut self, c: u8)`: `[c; 145]` with `command[0] = 0x24`. -/
def fill (bus : Bus) (st : St) (c : Nat) : Except St St := do
  let command := 0x24 :: List.replicate 144 c
  let st1 ← select_bank bus st st.dev.current_frame
  i2c_write bus st1 command

/-- The coordinate transform inside `draw_pixel`: branch on `x > 7`,
then swap the two coordinates, then `x + y * 16`. -/
def pixel_num (x y : Int) : Int :=
  let x1 := if x > 7 then 15 - x else x
  let y1 := if x > 7 then y + 8 else 7 - y
  let x2 := y1
  let y2 := x1
  x2 + y2 * 16

/-- `pub fn draw_pixel(&mut self, mut x: i16, mut y: i16, c: u8)`:
the register is `0x24 + pixel_num as u8`, computed in u8 arithmetic. -/
def draw_pixel (bus : Bus) (st : St) (x y : Int) (c : Nat) : Except St St :=
  write_to_bank bus st st.dev.current_frame
    ((0x24 + ((pixel_num x y) % 256).toNat) % 256) c

/-- The state a fresh `Self { a, i2c, current_frame: 0 }` starts from. -/
def init_state : St :=
  { dev := { current_frame := 0 }, nWrites := 0, trace := [] }

/-- Body of `pub fn new(i2c: T, a: A, d: &mut dyn DelayMs<u8>)` after
the struct literal, as a state transformer. -/
def new_body (bus : Bus) (st : St) : Except St St := do
  let st ← write_to_bank bus st ISSI_BANK_FUNCTIONREG ISSI_REG_SHUTDOWN 0x00
  let st := delay_ms st 10
  let st ← write_to_bank bus st ISSI_BANK_FUNCTIONREG ISSI_REG_SHUTDOWN 0x01
  let st ← clear bus st
  let st ← (List.range 8).foldlM (fun st f =>
    (List.range 0x12).foldlM (fun st i => write_to_bank bus st f i 0xff) st) st
  let st ← write_to_bank bus st ISSI_BANK_FUNCTIONREG ISSI_REG_AUDIOSYNC 0x0
  pure st

/-- `pub fn new`: run the construction sequence from the fresh state. -/
def new (bus : Bus) : Except St St :=
  new_body bus init_state

/-- An `embedded_graphics` pixel: a point (i32 coordinates) and its
`Gray8` color, whose `into_storage()` is its u8 luma value. -/
structure Pixel where
  x : Int
  y : Int
  color : Nat
  deriving DecidableEq, Repr

/-- The `v as i16` cast applied to each i32 point coordinate. -/
def as_i16 (v : Int) : Int := (v + 32768) % 65536 - 32768

/-- `Gray8::into_storage`: the wrapped u8 value itself. -/
def into_storage (c : Nat) : Nat := c

/-- `fn draw_iter<I>(&mut self, pixels: I)` from the `DrawTarget` impl. -/
def draw_iter (bus : Bus) : St → List Pixel → Except St St
  | st, [] => .ok st
  | st, p :: ps => do
    let st1 ← draw_pixel bus st (as_i16 p.x) (as_i16 p.y) (into_storage p.color)
    draw_iter bus st1 ps

/-- `embedded_graphics` canvas dimensions. -/
structure Size where
  width : Nat
  height : Nat
  deriving DecidableEq, Repr

/-- `fn size(&self) -> Size` from the `OriginDimensions` impl. -/
def size (_d : Driver) : Size := { width := 15, height := 7 }

/-! ### Derived notions used by the statements -/

/-- The state carried by an operation result, whether it succeeded or
aborted with a bus error. -/
def stOf : Except St St → St
  | .ok st => st
  | .error st => st

/-- Number of bus writes recorded in a trace (delays do not count). -/
def writesIn (t : List Event) : Nat :=
  t.countP fun e => match e with | .write _ => true | .delayMs _ => false

/-- The coordinate-to-offset rule exactly as the specification words
it: if x > 7 then x2 = 15 - x and y2 = y + 8, else x2 = x and
y2 = 7 - y; then swap the pair and take offset = first + second * 16,
which after the swap is y2 + x2 * 16. -/
def specOffset (x y : Int) : Int :=
  if x > 7 then (y + 8) + (15 - x) * 16 else (7 - y) + x * 16

/-- The pair of bus events one successful `draw_pixel` call produces
for a pixel coming in through the drawing interface. -/
def pixelEvents (frame : Nat) (p : Pixel) : List Event :=
  [.write [ISSI_COMMANDREGISTER, frame],
   .write [(0x24 + ((pixel_num (as_i16 p.x) (as_i16 p.y)) % 256).toNat) % 256,
           into_storage p.color]]

/-- The full event sequence of a successful construction: reset,
settle, enable, clear of frame 0, LED-enable of all 8 frames, and
audio-sync disable, in that order. -/
def newTrace : List Event :=
  [.write [ISSI_COMMANDREGISTER, ISSI_BANK_FUNCTIONREG], .write [ISSI_REG_SHUTDOWN, 0]]
  ++ [.delayMs 10]
  ++ [.write [ISSI_COMMANDREGISTER, ISSI_BANK_FUNCTIONREG], .write [ISSI_REG_SHUTDOWN, 1]]
  ++ [.write [ISSI_COMMANDREGISTER, 0], .write clearCommand]
  ++ ((List.range 8).flatMap fun f =>
       (List.range 0x12).flatMap fun i =>
        [.write [ISSI_COMMANDREGISTER, f], .write [i, 0xff]])
  ++ [.write [ISSI_COMMANDREGISTER, ISSI_BANK_FUNCTIONREG], .write [ISSI_REG_AUDIOSYNC, 0]]

/-- A bus that accepts the first two write attempts and then fails:
the third bus write of the construction sequence fails. -/
def busFailAfter2 : Bus := fun n => decide (n < 2)

/-- The state at the moment construction aborts on `busFailAfter2`:
two successful writes and the settling delay are on the trace. -/
def errState2 : St :=
  { dev := { current_frame := 0 }, nWrites := 2,
    trace := [.write [ISSI_COMMANDREGISTER, ISSI_BANK_FUNCTIONREG],
              .write [ISSI_REG_SHUTDOWN, 0], .delayMs 10] }

/-- A state transformer that never touches the driver fields, on
success or on failure. -/
def DevPres (f : St → Except St St) : Prop :=
  ∀ st : St, (stOf (f st)).dev = st.dev

/-- Accounting invariant tying a state to the bus oracle: the write
counter equals the number of writes on the trace, and every attempt
so far was accepted by the bus. -/
def Inv (bus : Bus) (st : St) : Prop :=
  writesIn st.trace = st.nWrites ∧ ∀ i, i < st.nWrites → bus i = true

/-- A state transformer that preserves `Inv` and, when it aborts,
does so exactly at the first write attempt the bus refuses. -/
def Good (bus : Bus) (f : St → Except St St) : Prop :=
  ∀ st : St, Inv bus st →
    (∀ st2, f st = .ok st2 → Inv bus st2) ∧
    (∀ st2, f st = .error st2 → Inv bus st2 ∧ bus st2.nWrites = false)

/-! ### Basic reduction lemmas -/

theorem ok_bind (a : St) (g : St → Except St St) :
    (Except.ok a : Except St St) >>= g = g a := rfl

theorem error_bind (e : St) (g : St → Except St St) :
    (Except.error e : Except St St) >>= g = Except.error e := rfl

theorem pure_ok (a : St) : (pure a : Except St St) = Except.ok a := rfl

theorem stOf_ok (st : St) : stOf (.ok st) = st := rfl

theorem stOf_error (st : St) : stOf (.error st) = st := rfl

theorem bind_eq_ok {e : Except St St} {g : St → Except St St} {b : St} :
    e >>= g = .ok b ↔ ∃ a, e = .ok a ∧ g a = .ok b := by
  cases e <;> simp [ok_bind, error_bind]

theorem bind_eq_error {e : Except St St} {g : St → Except St St} {b : St} :
    e >>= g = .error b ↔ e = .error b ∨ ∃ a, e = .ok a ∧ g a = .error b := by
  cases e <;> simp [ok_bind, error_bind]

theorem i2c_write_busTrue (st : St) (data : List Nat) :
    i2c_write busTrue st data =
      .ok { st with nWrites := st.nWrites + 1, trace := st.trace ++ [.write data] } := rfl

theorem getD_replicate (c d : Nat) :
    ∀ (n j : Nat), j < n → (List.replicate n c).getD j d = c
  | _ + 1, 0, _ => rfl
  | n + 1, j + 1, h => getD_replicate c d n j (Nat.lt_of_succ_lt_succ h)

theorem writesIn_append (t u : List Event) :
    writesIn (t ++ u) = writesIn t + writesIn u := by
  simp [writesIn, List.countP_append]

theorem writesIn_write (d : List Nat) : writesIn [.write d] = 1 := rfl

theorem writesIn_delay (ms : Nat) : writesIn [.delayMs ms] = 0 := rfl

/-! ### Characterization of the operations on an always-succeeding bus -/

theorem select_bank_busTrue (st : St) (bank : Nat) :
    select_bank busTrue st bank =
      .ok { st with nWrites := st.nWrites + 1,
                    trace := st.trace ++ [.write [ISSI_COMMANDREGISTER, bank]] } := rfl

theorem write_to_bank_busTrue (st : St) (bank reg value : Nat) :
    write_to_bank busTrue st bank reg value =
      .ok { st with nWrites := st.nWrites + 2,
                    trace := st.trace ++ [.write [ISSI_COMMANDREGISTER, bank],
                                  .write [reg, value]] } := by
  show select_bank busTrue st bank >>= (fun st1 => i2c_write busTrue st1 [reg, value]) = _
  rw [select_bank_busTrue, ok_bind, i2c_write_busTrue]
  simp [List.append_assoc]

theorem clear_busTrue (st : St) :
    clear busTrue st =
      .ok { st with nWrites := st.nWrites + 2,
                    trace := st.trace ++ [.write [ISSI_COMMANDREGISTER, st.dev.current_frame],
                                  .write clearCommand] } := by
  show select_bank busTrue st st.dev.current_frame >>= (fun st1 =>
      i2c_write busTrue st1 clearCommand >>= fun st2 => pure st2) = _
  rw [select_bank_busTrue, ok_bind, i2c_write_busTrue, ok_bind, pure_ok]
  simp [List.append_assoc]

theorem fill_busTrue (st : St) (c : Nat) :
    fill busTrue st c =
      .ok { st with nWrites := st.nWrites + 2,
                    trace := st.trace ++ [.write [ISSI_COMMANDREGISTER, st.dev.current_frame],
                                  .write (0x24 :: List.replicate 144 c)] } := by
  show select_bank busTrue st st.dev.current_frame >>= (fun st1 =>
      i2c_write busTrue st1 (0x24 :: List.replicate 144 c)) = _
  rw [select_bank_busTrue, ok_bind, i2c_write_busTrue]
  simp [List.append_assoc]

theorem draw_pixel_busTrue (st : St) (x y : Int) (c : Nat) :
    draw_pixel busTrue st x y c =
      .ok { st with nWrites := st.nWrites + 2,
                    trace := st.trace ++
              [.write [ISSI_COMMANDREGISTER, st.dev.current_frame],
               .write [(0x24 + ((pixel_num x y) % 256).toNat) % 256, c]] } :=
  write_to_bank_busTrue st st.dev.current_frame ((0x24 + ((pixel_num x y) % 256).toNat) % 256) c

/-! ### Driver-field preservation -/

theorem devPres_i2c_write (bus : Bus) (data : St → List Nat) :
    DevPres (fun st => i2c_write bus st (data st)) := by
  intro st
  simp only [i2c_write]
  split <;> rfl

theorem devPres_bind {f : St → Except St St} {g : St → St → Except St St}
    (hf : DevPres f) (hg : ∀ st, DevPres (g st)) :
    DevPres (fun st => f st >>= g st) := by
  intro st
  have hf2 := hf st
  rcases h : f st with e | a
  · rw [h] at hf2
    simp only [h, error_bind]
    exact hf2
  · rw [h] at hf2
    simp only [h, ok_bind]
    rw [hg st a]
    exact hf2

theorem devPres_pure : DevPres (fun st => (pure st : Except St St)) :=
  fun _ => rfl

theorem devPres_delay {f : St → Except St St} (ms : Nat) (hf : DevPres f) :
    DevPres (fun st => f (delay_ms st ms)) := by
  intro st
  rw [hf (delay_ms st ms)]
  rfl

theorem devPres_foldlM {α : Type} (f : St → α → Except St St)
    (hf : ∀ a, DevPres (fun st => f st a)) :
    ∀ l : List α, DevPres (fun st => l.foldlM f st) := by
  intro l
  induction l with
  | nil => intro st; rfl
  | cons a l ih =>
    have hstep : DevPres (fun st => f st a >>= fun s => l.foldlM f s) :=
      devPres_bind (hf a) (fun _ => ih)
    intro st
    show (stOf ((a :: l).foldlM f st)).dev = st.dev
    have he : (a :: l).foldlM f st = f st a >>= fun s => l.foldlM f s := by
      simp [List.foldlM]
    rw [he]
    exact hstep st

theorem devPres_select_bank (bus : Bus) (bank : St → Nat) :
    DevPres (fun st => select_bank bus st (bank st)) :=
  devPres_i2c_write bus (fun st => [ISSI_COMMANDREGISTER, bank st])

theorem devPres_write_to_bank (bus : Bus) (bank reg value : St → Nat) :
    DevPres (fun st => write_to_bank bus st (bank st) (reg st) (value st)) :=
  devPres_bind (devPres_select_bank bus bank)
    (fun st0 => devPres_i2c_write bus (fun _ => [reg st0, value st0]))

theorem devPres_clear (bus : Bus) : DevPres (fun st => clear bus st) :=
  devPres_bind (devPres_select_bank bus (fun st => st.dev.current_frame))
    (fun _ => devPres_bind (devPres_i2c_write bus (fun _ => clearCommand))
      (fun _ => devPres_pure))

theorem devPres_fill (bus : Bus) (c : Nat) : DevPres (fun st => fill bus st c) :=
  devPres_bind (devPres_select_bank bus (fun st => st.dev.current_frame))
    (fun _ => devPres_i2c_write bus (fun _ => 0x24 :: List.replicate 144 c))

theorem devPres_display_frame (bus : Bus) (f : Nat) :
    DevPres (fun st => display_frame bus st f) :=
  devPres_write_to_bank bus (fun _ => ISSI_BANK_FUNCTIONREG)
    (fun _ => ISSI_REG_PICTUREFRAME) (fun _ => if f > 7 then 0 else f)

theorem devPres_draw_pixel (bus : Bus) (x y : Int) (c : Nat) :
    DevPres (fun st => draw_pixel bus st x y c) :=
  devPres_write_to_bank bus (fun st => st.dev.current_frame)
    (fun _ => (0x24 + ((pixel_num x y) % 256).toNat) % 256) (fun _ => c)

theorem devPres_draw_iter (bus : Bus) :
    ∀ ps : List Pixel, DevPres (fun st => draw_iter bus st ps)
  | [] => fun _ => rfl
  | p :: ps =>
    devPres_bind
      (devPres_draw_pixel bus (as_i16 p.x) (as_i16 p.y) (into_storage p.color))
      (fun _ => devPres_draw_iter bus ps)

theorem devPres_new_body (bus : Bus) : DevPres (new_body bus) :=
  devPres_bind (devPres_write_to_bank bus (fun _ => ISSI_BANK_FUNCTIONREG)
      (fun _ => ISSI_REG_SHUTDOWN) (fun _ => 0x00))
    (fun _ => devPres_delay 10
      (devPres_bind (devPres_write_to_bank bus (fun _ => ISSI_BANK_FUNCTIONREG)
          (fun _ => ISSI_REG_SHUTDOWN) (fun _ => 0x01))
        (fun _ => devPres_bind (devPres_clear bus)
          (fun _ => devPres_bind
            (devPres_foldlM _
              (fun f2 => devPres_foldlM _
                (fun i => devPres_write_to_bank bus (fun _ => f2) (fun _ => i)
                  (fun _ => 0xff))
                (List.range 0x12))
              (List.range 8))
            (fun _ => devPres_bind (devPres_write_to_bank bus
                (fun _ => ISSI_BANK_FUNCTIONREG) (fun _ => ISSI_REG_AUDIOSYNC)
                (fun _ => 0x0))
              (fun _ => devPres_pure))))))

theorem new_dev (bus : Bus) :
    (stOf (new bus)).dev = { current_frame := 0 } :=
  devPres_new_body bus init_state

/-! ### Accounting invariant: aborts happen exactly at the first refused write -/

theorem good_i2c_write (bus : Bus) (data : St → List Nat) :
    Good bus (fun st => i2c_write bus st (data st)) := by
  intro st hst
  constructor
  · intro st2 h
    simp only [i2c_write] at h
    split at h
    · cases h
      rename_i hb
      refine ⟨?_, ?_⟩
      · rw [writesIn_append, writesIn_write, hst.1]
      · intro i hi
        rcases Nat.lt_succ_iff_lt_or_eq.mp hi with hlt | heq
        · exact hst.2 i hlt
        · subst heq; exact hb
    · exact Except.noConfusion h
  · intro st2 h
    simp only [i2c_write] at h
    split at h
    · exact Except.noConfusion h
    · cases h
      rename_i hb
      exact ⟨hst, by simpa using hb⟩

theorem good_bind {bus : Bus} {f : St → Except St St} {g : St → St → Except St St}
    (hf : Good bus f) (hg : ∀ st, Good bus (g st)) :
    Good bus (fun st => f st >>= g st) := by
  intro st hst
  constructor
  · intro st2 h2
    replace h2 : f st >>= g st = .ok st2 := h2
    rcases bind_eq_ok.mp h2 with ⟨a, ha, hb⟩
    exact (hg st a ((hf st hst).1 a ha)).1 st2 hb
  · intro st2 h2
    replace h2 : f st >>= g st = .error st2 := h2
    rcases bind_eq_error.mp h2 with he | ⟨a, ha, hb⟩
    · exact (hf st hst).2 st2 he
    · exact (hg st a ((hf st hst).1 a ha)).2 st2 hb

theorem good_pure (bus : Bus) : Good bus (fun st => (pure st : Except St St)) := by
  intro st hst
  constructor
  · intro st2 h
    replace h : Except.ok st = Except.ok st2 := h
    cases h
    exact hst
  · intro st2 h
    replace h : Except.ok st = Except.error st2 := h
    exact Except.noConfusion h

theorem inv_delay {bus : Bus} {st : St} (ms : Nat) (hst : Inv bus st) :
    Inv bus (delay_ms st ms) := by
  obtain ⟨h1, h2⟩ := hst
  refine ⟨?_, h2⟩
  simpa [delay_ms, writesIn_append, writesIn_delay] using h1

theorem good_delay {bus : Bus} {f : St → Except St St} (ms : Nat) (hf : Good bus f) :
    Good bus (fun st => f (delay_ms st ms)) := by
  intro st hst
  exact hf (delay_ms st ms) (inv_delay ms hst)

theorem good_foldlM {α : Type} {bus : Bus} (f : St → α → Except St St)
    (hf : ∀ a, Good bus (fun st => f st a)) :
    ∀ l : List α, Good bus (fun st => l.foldlM f st) := by
  intro l
  induction l with
  | nil => exact good_pure bus
  | cons a l ih =>
    have hstep : Good bus (fun st => f st a >>= fun s => l.foldlM f s) :=
      good_bind (hf a) (fun _ => ih)
    intro st hst
    have he : (a :: l).foldlM f st = f st a >>= fun s => l.foldlM f s := by
      simp [List.foldlM]
    constructor
    · intro st2 h2
      replace h2 : (a :: l).foldlM f st = .ok st2 := h2
      rw [he] at h2
      exact (hstep st hst).1 st2 h2
    · intro st2 h2
      replace h2 : (a :: l).foldlM f st = .error st2 := h2
      rw [he] at h2
      exact (hstep st hst).2 st2 h2

theorem good_select_bank (bus : Bus) (bank : St → Nat) :
    Good bus (fun st => select_bank bus st (bank st)) :=
  good_i2c_write bus (fun st => [ISSI_COMMANDREGISTER, bank st])

theorem good_write_to_bank (bus : Bus) (bank reg value : St → Nat) :
    Good bus (fun st => write_to_bank bus st (bank st) (reg st) (value st)) :=
  good_bind (good_select_bank bus bank)
    (fun st0 => good_i2c_write bus (fun _ => [reg st0, value st0]))

theorem good_clear (bus : Bus) : Good bus (fun st => clear bus st) :=
  good_bind (good_select_bank bus (fun st => st.dev.current_frame))
    (fun _ => good_bind (good_i2c_write bus (fun _ => clearCommand))
      (fun _ => good_pure bus))

theorem good_new_body (bus : Bus) : Good bus (new_body bus) :=
  good_bind (good_write_to_bank bus (fun _ => ISSI_BANK_FUNCTIONREG)
      (fun _ => ISSI_REG_SHUTDOWN) (fun _ => 0x00))
    (fun _ => good_delay 10
      (good_bind (good_write_to_bank bus (fun _ => ISSI_BANK_FUNCTIONREG)
          (fun _ => ISSI_REG_SHUTDOWN) (fun _ => 0x01))
        (fun _ => good_bind (good_clear bus)
          (fun _ => good_bind
            (good_foldlM _
              (fun f2 => good_foldlM _
                (fun i => good_write_to_bank bus (fun _ => f2) (fun _ => i)
                  (fun _ => 0xff))
                (List.range 0x12))
              (List.range 8))
            (fun _ => good_bind (good_write_to_bank bus
                (fun _ => ISSI_BANK_FUNCTIONREG) (fun _ => ISSI_REG_AUDIOSYNC)
                (fun _ => 0x0))
              (fun _ => good_pure bus))))))

theorem inv_init (bus : Bus) : Inv bus init_state :=
  ⟨rfl, fun i hi => absurd hi (Nat.not_lt_zero i)⟩

theorem new_aborts {bus : Bus} {st2 : St} (h : new bus = .error st2) :
    writesIn st2.trace = st2.nWrites ∧ (∀ i, i < st2.nWrites → bus i = true) ∧
      bus st2.nWrites = false := by
  have hg := (good_new_body bus init_state (inv_init bus)).2 st2 h
  exact ⟨hg.1.1, hg.1.2, hg.2⟩

theorem reg_matches_spec : ∀ x : Nat, x ≤ 15 → ∀ y : Nat, y ≤ 7 →
    ((0x24 + ((pixel_num x y) % 256).toNat) % 256) = (0x24 + specOffset x y).toNat := by
  decide

theorem draw_iter_busTrue : ∀ (ps : List Pixel) (st : St),
    draw_iter busTrue st ps =
      .ok { st with nWrites := st.nWrites + 2 * ps.length,
                    trace := st.trace ++ ps.flatMap (pixelEvents st.dev.current_frame) } := by
  intro ps
  induction ps with
  | nil => intro st; simp [draw_iter]
  | cons p ps ih =>
    intro st
    show (draw_pixel busTrue st (as_i16 p.x) (as_i16 p.y) (into_storage p.color) >>=
        fun st1 => draw_iter busTrue st1 ps) = _
    rw [draw_pixel_busTrue, ok_bind, ih]
    refine congrArg Except.ok ?_
    simp [pixelEvents, List.append_assoc, St.mk.injEq]
    omega

/-! ### The claims -/

/-- Claim C1: the coordinate-to-offset mapping used by draw_pixel is a
bijection on the declared domain: distinct coordinates with x in [0,15]
and y in [0,7] give distinct PWM offsets, every offset lands in
[0,127], and every offset in [0,127] is reached. -/
theorem C1_coordinate_map_bijective :
    (∀ (x1 : Fin 16) (y1 : Fin 8) (x2 : Fin 16) (y2 : Fin 8),
      (x1.val ≠ x2.val ∨ y1.val ≠ y2.val) →
      pixel_num x1.val y1.val ≠ pixel_num x2.val y2.val) ∧
    (∀ (x : Fin 16) (y : Fin 8),
      0 ≤ pixel_num x.val y.val ∧ pixel_num x.val y.val ≤ 127) ∧
    (∀ o : Fin 128, ∃ (x : Fin 16) (y : Fin 8), pixel_num x.val y.val = (o.val : Int)) := by
  refine ⟨by decide, by decide, by decide⟩

/-- Witness for C1 at concrete inputs. -/
theorem C1_coordinate_map_bijective_witness :
    pixel_num ((0 : Fin 16)).val ((0 : Fin 8)).val ≠
      pixel_num ((1 : Fin 16)).val ((0 : Fin 8)).val ∧
    (∃ (x : Fin 16) (y : Fin 8), pixel_num x.val y.val = (((5 : Fin 128)).val : Int)) :=
  ⟨C1_coordinate_map_bijective.1 0 0 1 0 (Or.inl (by decide)),
   C1_coordinate_map_bijective.2.2 5⟩

/-- Claim C2: on the declared domain draw_pixel computes the offset by
the rule the specification states and issues, after selecting the
current frame bank, a register write of value c to 0x24 + offset; in
particular (0,0,0xFF) hits register 0x2B and (8,0,0x10) hits 0x9C. -/
theorem C2_draw_pixel_offset :
    (∀ (st : St) (x y : Nat), x ≤ 15 → y ≤ 7 → ∀ c : Nat,
      draw_pixel busTrue st (x : Int) (y : Int) c =
        .ok { st with nWrites := st.nWrites + 2,
                      trace := st.trace ++
                        [.write [ISSI_COMMANDREGISTER, st.dev.current_frame],
                         .write [(0x24 + specOffset x y).toNat, c]] }) ∧
    (∀ st : St, draw_pixel busTrue st 0 0 0xFF =
      .ok { st with nWrites := st.nWrites + 2,
                    trace := st.trace ++
                      [.write [ISSI_COMMANDREGISTER, st.dev.current_frame],
                       .write [0x2B, 0xFF]] }) ∧
    (∀ st : St, draw_pixel busTrue st 8 0 0x10 =
      .ok { st with nWrites := st.nWrites + 2,
                    trace := st.trace ++
                      [.write [ISSI_COMMANDREGISTER, st.dev.current_frame],
                       .write [0x9C, 0x10]] }) := by
  refine ⟨?_, ?_, ?_⟩
  · intro st x y hx hy c
    rw [draw_pixel_busTrue, reg_matches_spec x hx y hy]
  · intro st
    rw [draw_pixel_busTrue]
    have h : ((0x24 + ((pixel_num 0 0) % 256).toNat) % 256) = 0x2B := by decide
    rw [h]
  · intro st
    rw [draw_pixel_busTrue]
    have h : ((0x24 + ((pixel_num 8 0) % 256).toNat) % 256) = 0x9C := by decide
    rw [h]

/-- Witness for C2 at x = 5, y = 2, c = 9: offset 85, register 0x79. -/
theorem C2_draw_pixel_offset_witness :
    draw_pixel busTrue init_state 5 2 9 =
      .ok { dev := { current_frame := 0 }, nWrites := 2,
            trace := [.write [ISSI_COMMANDREGISTER, 0], .write [0x79, 9]] } :=
  C2_draw_pixel_offset.1 init_state 5 2 (by decide) (by decide) 9

/-- Claim C3: clear selects the current frame bank and then issues one
bus write of the 181-byte command whose byte 0 is the start register
0x00, bytes 1..18 are 0xFF and bytes 19..180 are 0x00. -/
theorem C3_clear_single_write :
    ∀ st : St,
      clear busTrue st =
        .ok { st with nWrites := st.nWrites + 2,
                      trace := st.trace ++
                        [.write [ISSI_COMMANDREGISTER, st.dev.current_frame],
                         .write clearCommand] } ∧
      clearCommand.length = 181 ∧
      clearCommand.getD 0 99 = 0x00 ∧
      (∀ j, j ≤ 18 → 1 ≤ j → clearCommand.getD j 99 = 0xff) ∧
      (∀ j, j ≤ 180 → 19 ≤ j → clearCommand.getD j 99 = 0x00) := by
  intro st
  exact ⟨clear_busTrue st, by decide, by decide, by decide, by decide⟩

/-- Witness for C3 at two concrete byte positions. -/
theorem C3_clear_single_write_witness :
    clearCommand.getD 1 99 = 0xff ∧ clearCommand.getD 19 99 = 0x00 :=
  ⟨(C3_clear_single_write init_state).2.2.2.1 1 (by decide) (by decide),
   (C3_clear_single_write init_state).2.2.2.2 19 (by decide) (by decide)⟩

/-- Claim C4: construction performs its six steps in strict order (the
full event trace of a successful run), any bus failure aborts with
exactly the writes the bus accepted before the first refusal, and a
bus failing at the third write leaves exactly two successful writes. -/
theorem C4_new_sequence_and_abort :
    (new busTrue = .ok { dev := { current_frame := 0 }, nWrites := 296, trace := newTrace }) ∧
    (∀ (bus : Bus) (st2 : St), new bus = .error st2 →
      writesIn st2.trace = st2.nWrites ∧ (∀ i, i < st2.nWrites → bus i = true) ∧
      bus st2.nWrites = false) ∧
    (new busFailAfter2 = .error errState2) ∧
    writesIn errState2.trace = 2 := by
  refine ⟨by rfl, fun bus st2 h => new_aborts h, by rfl, by rfl⟩

/-- Witness for C4: the abort clause applied to the bus that refuses
the third write. -/
theorem C4_new_sequence_and_abort_witness :
    writesIn errState2.trace = errState2.nWrites ∧
    busFailAfter2 errState2.nWrites = false :=
  ⟨(C4_new_sequence_and_abort.2.1 busFailAfter2 errState2 (by rfl)).1,
   (C4_new_sequence_and_abort.2.1 busFailAfter2 errState2 (by rfl)).2.2⟩

/-- Claim C5: fill selects the current frame bank and issues one bus
write of 145 bytes, byte 0 equal to 0x24 and bytes 1..144 all equal to
the intensity. -/
theorem C5_fill_pwm_only :
    ∀ (st : St) (c : Nat),
      fill busTrue st c =
        .ok { st with nWrites := st.nWrites + 2,
                      trace := st.trace ++
                        [.write [ISSI_COMMANDREGISTER, st.dev.current_frame],
                         .write (0x24 :: List.replicate 144 c)] } ∧
      (0x24 :: List.replicate 144 c).length = 145 ∧
      (0x24 :: List.replicate 144 c).getD 0 99 = 0x24 ∧
      (∀ j, j ≤ 144 → 1 ≤ j → (0x24 :: List.replicate 144 c).getD j 99 = c) := by
  intro st c
  refine ⟨fill_busTrue st c, by simp, rfl, ?_⟩
  intro j hj h1
  obtain ⟨k, rfl⟩ : ∃ k, j = k + 1 := ⟨j - 1, (Nat.succ_pred_eq_of_pos h1).symm⟩
  show (List.replicate 144 c).getD k 99 = c
  exact getD_replicate c 99 144 k (by omega)

/-- Witness for C5 at intensity 7, byte position 1. -/
theorem C5_fill_pwm_only_witness :
    (0x24 :: List.replicate 144 7).getD 1 99 = 7 :=
  (C5_fill_pwm_only init_state 7).2.2.2 1 (by decide) (by decide)

/-- Claim C6: select_frame clamps values above 7 to 0, stores in-range
values unchanged, performs no bus I/O, and current_frame stays in
[0,7] after construction and after every public operation. -/
theorem C6_select_frame_clamp :
    (∀ (st : St) (f : Nat), f ≤ 7 → (select_frame st f).dev.current_frame = f) ∧
    (∀ (st : St) (f : Nat), 7 < f → (select_frame st f).dev.current_frame = 0) ∧
    (∀ (st : St) (f : Nat), (select_frame st f).trace = st.trace ∧
      (select_frame st f).nWrites = st.nWrites) ∧
    (∀ (st : St) (f : Nat), (select_frame st f).dev.current_frame ≤ 7) ∧
    (∀ bus : Bus, (stOf (new bus)).dev.current_frame = 0) ∧
    (∀ (bus : Bus) (st : St), st.dev.current_frame ≤ 7 →
      (stOf (clear bus st)).dev.current_frame ≤ 7) ∧
    (∀ (bus : Bus) (st : St) (c : Nat), st.dev.current_frame ≤ 7 →
      (stOf (fill bus st c)).dev.current_frame ≤ 7) ∧
    (∀ (bus : Bus) (st : St) (x y : Int) (c : Nat), st.dev.current_frame ≤ 7 →
      (stOf (draw_pixel bus st x y c)).dev.current_frame ≤ 7) ∧
    (∀ (bus : Bus) (st : St) (f : Nat), st.dev.current_frame ≤ 7 →
      (stOf (display_frame bus st f)).dev.current_frame ≤ 7) ∧
    (∀ (bus : Bus) (st : St) (ps : List Pixel), st.dev.current_frame ≤ 7 →
      (stOf (draw_iter bus st ps)).dev.current_frame ≤ 7) := by
  refine ⟨?_, ?_, ?_, ?_, ?_, ?_, ?_, ?_, ?_, ?_⟩
  · intro st f hf
    unfold select_frame
    rw [if_neg (by omega)]
  · intro st f hf
    unfold select_frame
    rw [if_pos (by omega)]
  · intro st f
    unfold select_frame
    split <;> exact ⟨rfl, rfl⟩
  · intro st f
    unfold select_frame
    split
    · exact Nat.zero_le 7
    · show f ≤ 7
      omega
  · intro bus
    rw [new_dev bus]
  · intro bus st h
    have h2 : (stOf (clear bus st)).dev = st.dev := devPres_clear bus st
    rw [h2]; exact h
  · intro bus st c h
    have h2 : (stOf (fill bus st c)).dev = st.dev := devPres_fill bus c st
    rw [h2]; exact h
  · intro bus st x y c h
    have h2 : (stOf (draw_pixel bus st x y c)).dev = st.dev := devPres_draw_pixel bus x y c st
    rw [h2]; exact h
  · intro bus st f h
    have h2 : (stOf (display_frame bus st f)).dev = st.dev := devPres_display_frame bus f st
    rw [h2]; exact h
  · intro bus st ps h
    have h2 : (stOf (draw_iter bus st ps)).dev = st.dev := devPres_draw_iter bus ps st
    rw [h2]; exact h

/-- Witness for C6 at concrete frames 5 and 9 and one concrete run. -/
theorem C6_select_frame_clamp_witness :
    (select_frame init_state 5).dev.current_frame = 5 ∧
    (select_frame init_state 9).dev.current_frame = 0 ∧
    (stOf (clear busTrue init_state)).dev.current_frame ≤ 7 :=
  ⟨C6_select_frame_clamp.1 init_state 5 (by decide),
   C6_select_frame_clamp.2.1 init_state 9 (by decide),
   C6_select_frame_clamp.2.2.2.2.2.1 busTrue init_state (by decide)⟩

/-- Claim C7: display_frame selects the function bank and issues one
write to the picture-frame register with value f for f in [0,7] and
value 0 for f above 7. -/
theorem C7_display_frame_write :
    ∀ (st : St) (f : Nat),
      (f ≤ 7 → display_frame busTrue st f =
        .ok { st with nWrites := st.nWrites + 2,
                      trace := st.trace ++
                        [.write [ISSI_COMMANDREGISTER, ISSI_BANK_FUNCTIONREG],
                         .write [ISSI_REG_PICTUREFRAME, f]] }) ∧
      (7 < f → display_frame busTrue st f =
        .ok { st with nWrites := st.nWrites + 2,
                      trace := st.trace ++
                        [.write [ISSI_COMMANDREGISTER, ISSI_BANK_FUNCTIONREG],
                         .write [ISSI_REG_PICTUREFRAME, 0]] }) := by
  intro st f
  constructor
  · intro hf
    show write_to_bank busTrue st ISSI_BANK_FUNCTIONREG ISSI_REG_PICTUREFRAME
      (if f > 7 then 0 else f) = _
    rw [if_neg (by omega)]
    exact write_to_bank_busTrue st _ _ f
  · intro hf
    show write_to_bank busTrue st ISSI_BANK_FUNCTIONREG ISSI_REG_PICTUREFRAME
      (if f > 7 then 0 else f) = _
    rw [if_pos (by omega)]
    exact write_to_bank_busTrue st _ _ 0

/-- Witness for C7 at frames 3 (in range) and 9 (clamped). -/
theorem C7_display_frame_write_witness :
    display_frame busTrue init_state 3 =
      .ok { dev := { current_frame := 0 }, nWrites := 2,
            trace := [.write [ISSI_COMMANDREGISTER, ISSI_BANK_FUNCTIONREG],
                      .write [ISSI_REG_PICTUREFRAME, 3]] } ∧
    display_frame busTrue init_state 9 =
      .ok { dev := { current_frame := 0 }, nWrites := 2,
            trace := [.write [ISSI_COMMANDREGISTER, ISSI_BANK_FUNCTIONREG],
                      .write [ISSI_REG_PICTUREFRAME, 0]] } :=
  ⟨(C7_display_frame_write init_state 3).1 (by decide),
   (C7_display_frame_write init_state 9).2 (by decide)⟩

/-- Claim C8: the drawing adapter calls draw_pixel once per pixel in
sequence order (on a fault-free bus the trace appends the per-pixel
event pairs in order and returns Ok), stops at the first bus error and
returns it, and steps through a successful head call to the tail. -/
theorem C8_draw_iter_sequential :
    (∀ (st : St) (ps : List Pixel),
      draw_iter busTrue st ps =
        .ok { st with nWrites := st.nWrites + 2 * ps.length,
                      trace := st.trace ++ ps.flatMap (pixelEvents st.dev.current_frame) }) ∧
    (∀ (bus : Bus) (st st1 : St) (p : Pixel) (ps : List Pixel),
      draw_pixel bus st (as_i16 p.x) (as_i16 p.y) (into_storage p.color) = .error st1 →
      draw_iter bus st (p :: ps) = .error st1) ∧
    (∀ (bus : Bus) (st st1 : St) (p : Pixel) (ps : List Pixel),
      draw_pixel bus st (as_i16 p.x) (as_i16 p.y) (into_storage p.color) = .ok st1 →
      draw_iter bus st (p :: ps) = draw_iter bus st1 ps) := by
  refine ⟨fun st ps => draw_iter_busTrue ps st, ?_, ?_⟩
  · intro bus st st1 p ps h
    show (draw_pixel bus st (as_i16 p.x) (as_i16 p.y) (into_storage p.color) >>=
        fun s => draw_iter bus s ps) = _
    rw [h, error_bind]
  · intro bus st st1 p ps h
    show (draw_pixel bus st (as_i16 p.x) (as_i16 p.y) (into_storage p.color) >>=
        fun s => draw_iter bus s ps) = _
    rw [h, ok_bind]

/-- Witness for C8: one pixel steps to the computed intermediate state. -/
theorem C8_draw_iter_sequential_witness :
    draw_iter busTrue init_state [{ x := 0, y := 0, color := 5 }] =
      draw_iter busTrue { dev := { current_frame := 0 }, nWrites := 2,
                          trace := [.write [ISSI_COMMANDREGISTER, 0], .write [0x2B, 5]] } [] :=
  C8_draw_iter_sequential.2.2 busTrue init_state _ { x := 0, y := 0, color := 5 } []
    (by rfl)

/-- Claim C9: the drawing interface reports the canvas size as 15 wide
and 7 tall, the width and height of the 16 by 8 grid each minus one,
for every driver instance. -/
theorem C9_reported_size :
    ∀ d : Driver, size d = { width := 15, height := 7 } ∧
      (size d).width = 16 - 1 ∧ (size d).height = 8 - 1 :=
  fun _ => ⟨rfl, rfl, rfl⟩

/-- Claim C10: construction leaves current_frame at 0 and clear, fill,
draw_pixel, display_frame and draw_iter never change current_frame,
whether they succeed or abort with a bus error; select_frame is the
only mutator. -/
theorem C10_only_select_frame_changes_frame :
    (∀ bus : Bus, (stOf (new bus)).dev.current_frame = 0) ∧
    (∀ (bus : Bus) (st : St),
      (stOf (clear bus st)).dev.current_frame = st.dev.current_frame) ∧
    (∀ (bus : Bus) (st : St) (c : Nat),
      (stOf (fill bus st c)).dev.current_frame = st.dev.current_frame) ∧
    (∀ (bus : Bus) (st : St) (x y : Int) (c : Nat),
      (stOf (draw_pixel bus st x y c)).dev.current_frame = st.dev.current_frame) ∧
    (∀ (bus : Bus) (st : St) (f : Nat),
      (stOf (display_frame bus st f)).dev.current_frame = st.dev.current_frame) ∧
    (∀ (bus : Bus) (st : St) (ps : List Pixel),
      (stOf (draw_iter bus st ps)).dev.current_frame = st.dev.current_frame) := by
  refine ⟨?_, ?_, ?_, ?_, ?_, ?_⟩
  · intro bus
    rw [new_dev bus]
  · intro bus st
    have h : (stOf (clear bus st)).dev = st.dev := devPres_clear bus st
    rw [h]
  · intro bus st c
    have h : (stOf (fill bus st c)).dev = st.dev := devPres_fill bus c st
    rw [h]
  · intro bus st x y c
    have h : (stOf (draw_pixel bus st x y c)).dev = st.dev := devPres_draw_pixel bus x y c st
    rw [h]
  · intro bus st f
    have h : (stOf (display_frame bus st f)).dev = st.dev := devPres_display_frame bus f st
    rw [h]
  · intro bus st ps
    have h : (stOf (draw_iter bus st ps)).dev = st.dev := devPres_draw_iter bus ps st
    rw [h]

end IS31FL3731
